import Mathlib

/-!
Shallow embedding of `src/VintageMacDebug/Debug.c`, a file-based debug
logger for Classic Mac OS, together with theorems about its behaviour.

The C module keeps two globals (`gDebugRefNum : short`, a file reference
number where `0` means "no open file", and `gDebugEnabled : Boolean`) and
talks to the file system through the Toolbox calls `FSDelete`, `Create`,
`FSOpen`, `FSWrite`, `FSClose`, signalling status through `SysBeep`.

The embedding makes the environment explicit:
* `St` carries the two globals, the bytes appended to the log file so far,
  the sequence of `SysBeep` codes emitted, a trace of file-system calls,
  a ghost list of currently open reference numbers, and a queue of injected
  outcomes for successive `FSWrite` calls (an empty queue means every write
  succeeds in full).
* `Env` carries the outcomes of the `Create` and `FSOpen` calls made by
  `DebugInit` (the results of `FSDelete` and `FSClose` are ignored by the
  code, so they need no injection).
C strings are `Option (List Char)` — `none` is the nil pointer, and the
list holds the bytes the pointer refers to, possibly containing NUL.
-/

namespace VintageMacDebug

/-- A file-system call, for the trace of I/O the code performs. -/
inductive FSOp where
  | close (ref : Int)
  | delete (name : List Char)
  | create (name : List Char)
  | openF (name : List Char)
  | write (ref : Int) (data : List Char)
deriving DecidableEq, Repr

/-- Injected outcome of one `FSWrite` call: its error code and how many
bytes the file system actually wrote (capped at the requested count). -/
structure WriteOutcome where
  err : Int
  written : Nat
deriving DecidableEq, Repr

/-- The logger's global state plus the observable environment. -/
structure St where
  gDebugRefNum : Int
  gDebugEnabled : Bool
  file : List Char
  beeps : List Nat
  trace : List FSOp
  openRefs : List Int
  writeOutcomes : List WriteOutcome
deriving DecidableEq, Repr

/-- Outcomes of the `Create` and `FSOpen` calls made by `DebugInit`. -/
structure Env where
  createErr : Int
  openErr : Int
  openRef : Int
deriving DecidableEq, Repr

/-- The state at process start: no handle, disabled, nothing written. -/
def initialState (outcomes : List WriteOutcome) : St :=
  ⟨0, false, [], [], [], [], outcomes⟩

/-- `SysBeep(n)`: record the status code. -/
def sysBeep (n : Nat) (st : St) : St :=
  { st with beeps := st.beeps ++ [n] }

/-- Loop of `MyStrLen`: `while (*str != 0 && len < 32000) len++;`. -/
def MyStrLenAux : List Char → Nat → Nat
  | [], len => len
  | c :: rest, len =>
      if c ≠ Char.ofNat 0 ∧ len < 32000 then MyStrLenAux rest (len + 1) else len

/-- `MyStrLen`: length of a C string, 0 for nil, capped at 32000. -/
def MyStrLen : Option (List Char) → Nat
  | none => 0
  | some s => MyStrLenAux s 0

/-- `FSClose(ref)`: release the handle (result ignored by all callers). -/
def fsClose (ref : Int) (st : St) : St :=
  { st with trace := st.trace ++ [FSOp.close ref],
            openRefs := st.openRefs.erase ref }

/-- `FSDelete(name, 0)`: best-effort delete (result ignored). -/
def fsDelete (name : List Char) (st : St) : St :=
  { st with trace := st.trace ++ [FSOp.delete name] }

/-- `Create(name, 0, 'ttxt', 'TEXT')`: returns the injected error code. -/
def fsCreate (env : Env) (name : List Char) (st : St) : Int × St :=
  (env.createErr, { st with trace := st.trace ++ [FSOp.create name] })

/-- `FSOpen(name, 0, &ref)`: on success yields the injected reference
number and registers it as open; on failure yields reference 0. -/
def fsOpen (env : Env) (name : List Char) (st : St) : (Int × Int) × St :=
  if env.openErr = 0 then
    ((0, env.openRef),
     { st with trace := st.trace ++ [FSOp.openF name],
               openRefs := st.openRefs ++ [env.openRef] })
  else
    ((env.openErr, 0), { st with trace := st.trace ++ [FSOp.openF name] })

/-- `FSWrite(ref, &count, data)`: consumes the next injected outcome
(success in full if the queue is empty), appends the bytes actually
written to the file, and returns `(err, count-written-back)`. -/
def fsWrite (ref : Int) (data : List Char) (st : St) : (Int × Nat) × St :=
  match st.writeOutcomes with
  | [] =>
      ((0, data.length),
       { st with file := st.file ++ data,
                 trace := st.trace ++ [FSOp.write ref data] })
  | o :: rest =>
      ((o.err, min o.written data.length),
       { st with file := st.file ++ data.take (min o.written data.length),
                 trace := st.trace ++ [FSOp.write ref data],
                 writeOutcomes := rest })

/-- The header line written by `DebugInit`. -/
def headerMsg : List Char := "DEBUG LOG INITIALIZED\r".toList

/-- The footer line written by `DebugClose`. -/
def closedMsg : List Char := "DEBUG LOG CLOSED\r".toList

/-- `DebugInit(filename)`: close any open log, convert the name to a
Pascal string truncated at 255 bytes, delete, create and open the file,
then write the header; returns `true` only if create, open and
header-write all succeed. -/
def DebugInit (env : Env) (filename : Option (List Char)) (st0 : St) :
    Bool × St :=
  let st1 :=
    if st0.gDebugRefNum ≠ 0 then
      let stc := fsClose st0.gDebugRefNum st0
      { stc with gDebugRefNum := 0 }
    else st0
  let st2 := { st1 with gDebugEnabled := false }
  match filename with
  | none => (false, sysBeep 1 st2)
  | some s =>
      let len := min (MyStrLen (some s)) 255
      let pName := s.take len
      let st3 := fsDelete pName st2
      let cRes := fsCreate env pName st3
      if cRes.1 ≠ 0 then (false, sysBeep 2 cRes.2)
      else
        let oRes := fsOpen env pName cRes.2
        if oRes.1.1 ≠ 0 then
          (false, sysBeep 3 { oRes.2 with gDebugRefNum := 0 })
        else
          let ref := oRes.1.2
          let st6 := { oRes.2 with gDebugRefNum := ref, gDebugEnabled := true }
          let wRes := fsWrite ref (headerMsg.take (MyStrLen (some headerMsg))) st6
          if wRes.1.1 ≠ 0 then
            let st7 := sysBeep 4 wRes.2
            let st8 := fsClose ref st7
            (false, { st8 with gDebugRefNum := 0, gDebugEnabled := false })
          else
            (true, sysBeep 10 wRes.2)

/-- `DebugLog(message)`: precondition checks with distinct beeps, then the
message write (checking error code and byte count), then the `\r` write
(checking the error code). Returns nothing to the caller. -/
def DebugLog (message : Option (List Char)) (st : St) : St :=
  if st.gDebugEnabled = false then sysBeep 5 st
  else if st.gDebugRefNum = 0 then sysBeep 6 st
  else
    match message with
    | none => sysBeep 7 st
    | some s =>
        let msgLen := MyStrLen (some s)
        if msgLen = 0 then sysBeep 8 st
        else
          let w1 := fsWrite st.gDebugRefNum (s.take msgLen) st
          if w1.1.1 ≠ 0 ∨ w1.1.2 ≠ msgLen then sysBeep 20 w1.2
          else
            let w2 := fsWrite st.gDebugRefNum ['\r'] w1.2
            if w2.1.1 ≠ 0 then sysBeep 21 w2.2 else w2.2

/-- Digit loop of `DebugLogInt`: `while (absVal > 0 && i < 19)` builds
decimal digits least-significant-first; the fuel is `19 - i`. -/
def buildDigitsAux : Nat → Nat → List Char
  | _, 0 => []
  | n, fuel + 1 =>
      if n > 0 then Char.ofNat (48 + n % 10) :: buildDigitsAux (n / 10) fuel
      else []

/-- Write the bytes of `numBuf` from its last element down to its first,
one `FSWrite` per byte, aborting the rest after the first error (the
`for (j = i - 1; j >= 0; j--)` loop). Returns whether a write failed. -/
def writeRevBytes (ref : Int) : List Char → St → Bool × St
  | [], st => (false, st)
  | c :: rest, st =>
      let r := writeRevBytes ref rest st
      if r.1 then r
      else
        let w := fsWrite ref [c] r.2
        (decide (w.1.1 ≠ 0), w.2)

/-- `DebugLogInt(message, value)`: write the prefix, convert the signed
long to decimal via unsigned arithmetic, write digits one byte at a time
most-significant-first, then the terminator. -/
def DebugLogInt (message : Option (List Char)) (value : Int) (st : St) : St :=
  match message with
  | none => st
  | some s =>
      if st.gDebugEnabled = false ∨ st.gDebugRefNum = 0 then st
      else
        let ref := st.gDebugRefNum
        let msgLen := MyStrLen (some s)
        let r1 : Bool × St :=
          if 0 < msgLen then
            let w := fsWrite ref (s.take msgLen) st
            (decide (w.1.1 ≠ 0), w.2)
          else (false, st)
        if r1.1 then r1.2
        else
          let isNeg := decide (value < 0)
          let absVal : Nat :=
            if value < 0 then ((-value) % (2 : Int) ^ 32).toNat
            else (value % (2 : Int) ^ 32).toNat
          let numBuf :=
            (if absVal = 0 then [Char.ofNat 48] else buildDigitsAux absVal 19) ++
              (if isNeg then [Char.ofNat 45] else [])
          let r2 := writeRevBytes ref numBuf r1.2
          if r2.1 then r2.2
          else (fsWrite ref ['\r'] r2.2).2

/-- The `hexChars` table `"0123456789ABCDEF"` of `DebugLogHex`. -/
def hexChar (n : Nat) : Char := "0123456789ABCDEF".toList.getD n '*'

/-- `DebugLogHex(message, value)`: write the prefix, the literal `0x`,
two uppercase hex digits of the low byte, then the terminator; no write
result is inspected on this path. -/
def DebugLogHex (message : Option (List Char)) (value : Nat) (st : St) : St :=
  match message with
  | none => st
  | some s =>
      if st.gDebugEnabled = false ∨ st.gDebugRefNum = 0 then st
      else
        let v := value % 2 ^ 32
        let ref := st.gDebugRefNum
        let msgLen := MyStrLen (some s)
        let st1 := if 0 < msgLen then (fsWrite ref (s.take msgLen) st).2 else st
        let st2 := (fsWrite ref ['0', 'x'] st1).2
        let st3 := (fsWrite ref [hexChar (v / 16 % 16), hexChar (v % 16)] st2).2
        (fsWrite ref ['\r'] st3).2

/-- `DebugLogFormat(format, ...)`: just logs the format string; the
variadic arguments are never consulted. -/
def DebugLogFormat (fmt : Option (List Char)) (st : St) : St :=
  match fmt with
  | none => st
  | some s => DebugLog (some s) st

/-- `DebugFlush()`: a no-op. -/
def DebugFlush (st : St) : St := st

/-- `DebugClose()`: if a file is open, write the footer (result ignored),
close the handle and zero the reference; always disable logging. -/
def DebugClose (st : St) : St :=
  let st1 :=
    if st.gDebugRefNum = 0 then st
    else
      let stw := (fsWrite st.gDebugRefNum
        (closedMsg.take (MyStrLen (some closedMsg))) st).2
      let stc := fsClose st.gDebugRefNum stw
      { stc with gDebugRefNum := 0 }
  { st1 with gDebugEnabled := false }

/-- `DebugIsEnabled()`: pure read of the enabled flag. -/
def DebugIsEnabled (st : St) : Bool := st.gDebugEnabled

/-- The handle part of the state invariant: the ghost list of open
reference numbers is empty when no log is open and is exactly the
logger's handle otherwise. -/
def HandleInv (st : St) : Prop :=
  if st.gDebugRefNum = 0 then st.openRefs = [] else st.openRefs = [st.gDebugRefNum]

/-- The full state invariant: enabled implies a handle is present, and
at most that one handle is open. -/
def Inv (st : St) : Prop :=
  (st.gDebugEnabled = true → st.gDebugRefNum ≠ 0) ∧ HandleInv st

/-- Error code of the `FSWrite` that `DebugInit` will perform next (the
head of the injected outcome queue; an empty queue means success). -/
def headWriteErr (st : St) : Int :=
  match st.writeOutcomes with
  | [] => 0
  | o :: _ => o.err

/-- Modelled from the spec: the decimal digits of `n`,
most-significant-first, as produced by repeated division by 10 (fuel 19
matches the digit capacity of the C buffer). -/
def natDecAux : Nat → Nat → List Char
  | _, 0 => []
  | n, fuel + 1 =>
      if n < 10 then [Char.ofNat (48 + n)]
      else natDecAux (n / 10) fuel ++ [Char.ofNat (48 + n % 10)]

/-- Modelled from the spec: the base-10 representation of a natural
number below `10 ^ 19`. -/
def natDec (n : Nat) : List Char := natDecAux n 19

/-- Modelled from the spec: the decimal record body for a signed value —
a leading minus sign iff the value is negative, then the exact base-10
magnitude. -/
def intDec (v : Int) : List Char :=
  (if v < 0 then ['-'] else []) ++ natDec v.natAbs

/-- A concrete enabled logger state with handle 7 and no injected write
failures, used to instantiate theorems at concrete inputs. -/
def stOpen7 : St :=
  { initialState [] with gDebugRefNum := 7, gDebugEnabled := true,
                         openRefs := [7] }

/-- A concrete enabled logger whose next write fails with error -36
writing 0 bytes. -/
def stFailMsg : St :=
  { initialState [⟨-36, 0⟩] with gDebugRefNum := 7, gDebugEnabled := true,
                                 openRefs := [7] }

/-- A concrete enabled logger whose next write succeeds in full (up to 5
bytes) and whose second write fails with error -36. -/
def stFailNl : St :=
  { initialState [⟨0, 5⟩, ⟨-36, 0⟩] with gDebugRefNum := 7,
                                         gDebugEnabled := true,
                                         openRefs := [7] }

/-! ### Helper lemmas -/

theorem MyStrLenAux_eq (s : List Char) : ∀ l : Nat, l ≤ 32000 →
    MyStrLenAux s l =
      min (l + (s.takeWhile fun c => c ≠ Char.ofNat 0).length) 32000 := by
  induction s with
  | nil =>
      intro l hl
      simp [MyStrLenAux, Nat.min_eq_left hl]
  | cons c rest ih =>
      intro l hl
      by_cases hc : c = Char.ofNat 0
      · simp [MyStrLenAux, hc, Nat.min_eq_left hl]
      · by_cases hlt : l < 32000
        · rw [MyStrLenAux, if_pos ⟨hc, hlt⟩, ih (l + 1) hlt]
          simp [List.takeWhile_cons, hc]
          omega
        · have hl' : l = 32000 := by omega
          subst hl'
          rw [MyStrLenAux, if_neg (by simp)]
          simp [List.takeWhile_cons, hc]

theorem MyStrLen_eq (s : List Char) :
    MyStrLen (some s) =
      min ((s.takeWhile fun c => c ≠ Char.ofNat 0).length) 32000 := by
  simpa using MyStrLenAux_eq s 0 (by omega)

theorem takeWhile_length_le (p : Char → Bool) (s : List Char) :
    (s.takeWhile p).length ≤ s.length := by
  induction s with
  | nil => simp
  | cons c rest ih =>
      rw [List.takeWhile_cons]
      by_cases h : p c = true
      · simp [h]
        omega
      · simp [h]

theorem MyStrLen_le_length (s : List Char) : MyStrLen (some s) ≤ s.length := by
  have h := MyStrLen_eq s
  have h2 := takeWhile_length_le (fun c => decide (c ≠ Char.ofNat 0)) s
  omega

theorem MyStrLen_of_noNul (s : List Char) (hNul : Char.ofNat 0 ∉ s)
    (hLen : s.length ≤ 32000) : MyStrLen (some s) = s.length := by
  rw [MyStrLen_eq]
  rw [List.takeWhile_eq_self_iff.mpr ?_]
  · omega
  · intro c hc
    simp only [decide_eq_true_eq]
    exact fun h => hNul (h ▸ hc)

@[simp] theorem fsWrite_gDebugRefNum (ref : Int) (d : List Char) (st : St) :
    (fsWrite ref d st).2.gDebugRefNum = st.gDebugRefNum := by
  cases h : st.writeOutcomes <;> simp [fsWrite, h]

@[simp] theorem fsWrite_gDebugEnabled (ref : Int) (d : List Char) (st : St) :
    (fsWrite ref d st).2.gDebugEnabled = st.gDebugEnabled := by
  cases h : st.writeOutcomes <;> simp [fsWrite, h]

@[simp] theorem fsWrite_openRefs (ref : Int) (d : List Char) (st : St) :
    (fsWrite ref d st).2.openRefs = st.openRefs := by
  cases h : st.writeOutcomes <;> simp [fsWrite, h]

@[simp] theorem sysBeep_gDebugRefNum (n : Nat) (st : St) :
    (sysBeep n st).gDebugRefNum = st.gDebugRefNum := rfl

@[simp] theorem sysBeep_gDebugEnabled (n : Nat) (st : St) :
    (sysBeep n st).gDebugEnabled = st.gDebugEnabled := rfl

@[simp] theorem sysBeep_openRefs (n : Nat) (st : St) :
    (sysBeep n st).openRefs = st.openRefs := rfl

theorem fsWrite_nilOutcomes (ref : Int) (d : List Char) (st : St)
    (h : st.writeOutcomes = []) :
    fsWrite ref d st =
      ((0, d.length),
       { st with file := st.file ++ d,
                 trace := st.trace ++ [FSOp.write ref d] }) := by
  simp [fsWrite, h]

theorem writeRevBytes_nilOutcomes (ref : Int) (l : List Char) (st : St)
    (h : st.writeOutcomes = []) :
    writeRevBytes ref l st =
      (false,
       { st with file := st.file ++ l.reverse,
                 trace := st.trace ++ l.reverse.map fun c => FSOp.write ref [c] }) := by
  induction l generalizing st with
  | nil => simp [writeRevBytes]
  | cons c rest ih =>
      rw [writeRevBytes, ih st h]
      simp [fsWrite, h]

theorem buildDigitsAux_zero (fuel : Nat) : buildDigitsAux 0 fuel = [] := by
  cases fuel <;> simp [buildDigitsAux]

theorem buildDigitsAux_reverse : ∀ (fuel n : Nat), 0 < n → n < 10 ^ fuel →
    (buildDigitsAux n fuel).reverse = natDecAux n fuel := by
  intro fuel
  induction fuel with
  | zero => intro n h1 h2; omega
  | succ f ih =>
      intro n h1 h2
      rw [buildDigitsAux, if_pos h1]
      by_cases h10 : n < 10
      · have : n / 10 = 0 := by omega
        rw [this, buildDigitsAux_zero]
        have : n % 10 = n := by omega
        simp [natDecAux, h10, this]
      · rw [natDecAux, if_neg h10]
        have hq1 : 0 < n / 10 := by omega
        have hq2 : n / 10 < 10 ^ f := by
          apply Nat.div_lt_of_lt_mul
          calc n < 10 ^ (f + 1) := h2
          _ = 10 * 10 ^ f := by ring
        rw [← ih (n / 10) hq1 hq2]
        simp

theorem headerMsg_take :
    headerMsg.take (MyStrLen (some headerMsg)) = headerMsg := by decide

theorem closedMsg_take :
    closedMsg.take (MyStrLen (some closedMsg)) = closedMsg := by decide

/-! ### Claim theorems -/

/-- C3: `DebugLog` checks its preconditions in order — logger enabled
(beep 5), handle present (beep 6), message non-nil (beep 7), message
non-empty (beep 8) — each failure emitting a distinct status code; on any
failing precondition the state changes only by that beep, so no I/O is
performed and zero bytes reach the file. -/
theorem debugLog_precondition_checks (st : St) (m : Option (List Char))
    (s : List Char) :
    (st.gDebugEnabled = false →
      DebugLog m st = { st with beeps := st.beeps ++ [5] }) ∧
    (st.gDebugEnabled = true → st.gDebugRefNum = 0 →
      DebugLog m st = { st with beeps := st.beeps ++ [6] }) ∧
    (st.gDebugEnabled = true → st.gDebugRefNum ≠ 0 →
      DebugLog none st = { st with beeps := st.beeps ++ [7] }) ∧
    (st.gDebugEnabled = true → st.gDebugRefNum ≠ 0 → MyStrLen (some s) = 0 →
      DebugLog (some s) st = { st with beeps := st.beeps ++ [8] }) := by
  refine ⟨fun hEn => ?_, fun hEn hRef => ?_, fun hEn hRef => ?_,
    fun hEn hRef hLen => ?_⟩
  · simp [DebugLog, hEn, sysBeep]
  · simp [DebugLog, hEn, hRef, sysBeep]
  · simp [DebugLog, hEn, hRef, sysBeep]
  · simp [DebugLog, hEn, hRef, hLen, sysBeep]

/-- Witness for C3 at concrete states: a disabled logger, an enabled
logger without a handle, a nil message, and an empty message. -/
theorem debugLog_precondition_checks_witness :
    DebugLog (some "hi".toList) (initialState []) =
      { initialState [] with beeps := [5] } ∧
    DebugLog (some "hi".toList)
        { initialState [] with gDebugEnabled := true } =
      { initialState [] with gDebugEnabled := true, beeps := [6] } ∧
    DebugLog none
        { initialState [] with gDebugEnabled := true, gDebugRefNum := 7,
                               openRefs := [7] } =
      { initialState [] with gDebugEnabled := true, gDebugRefNum := 7,
                             openRefs := [7], beeps := [7] } ∧
    DebugLog (some [])
        { initialState [] with gDebugEnabled := true, gDebugRefNum := 7,
                               openRefs := [7] } =
      { initialState [] with gDebugEnabled := true, gDebugRefNum := 7,
                             openRefs := [7], beeps := [8] } :=
  ⟨(debugLog_precondition_checks (initialState [])
      (some "hi".toList) []).1 (by decide),
   (debugLog_precondition_checks
      { initialState [] with gDebugEnabled := true }
      (some "hi".toList) []).2.1 (by decide) (by decide),
   (debugLog_precondition_checks
      { initialState [] with gDebugEnabled := true, gDebugRefNum := 7,
                             openRefs := [7] }
      none []).2.2.1 (by decide) (by decide),
   (debugLog_precondition_checks
      { initialState [] with gDebugEnabled := true, gDebugRefNum := 7,
                             openRefs := [7] }
      none []).2.2.2 (by decide) (by decide) (by decide)⟩

/-- C8: `DebugClose` with an open handle writes the footer
`DEBUG LOG CLOSED\r` best-effort and releases the handle; it always
leaves the logger disabled with reference 0 even if the footer write
fails (the first two conjuncts hold for every injected outcome); with no
open handle it performs no I/O; and closing twice equals closing once. -/
theorem debugClose_footer_idempotent (st : St) :
    (DebugClose st).gDebugEnabled = false ∧
    (DebugClose st).gDebugRefNum = 0 ∧
    (st.gDebugRefNum = 0 → DebugClose st = { st with gDebugEnabled := false }) ∧
    (st.gDebugRefNum ≠ 0 → st.writeOutcomes = [] →
      DebugClose st =
        { st with file := st.file ++ closedMsg,
                  trace := st.trace ++ [FSOp.write st.gDebugRefNum closedMsg,
                                        FSOp.close st.gDebugRefNum],
                  openRefs := st.openRefs.erase st.gDebugRefNum,
                  gDebugRefNum := 0, gDebugEnabled := false }) ∧
    DebugClose (DebugClose st) = DebugClose st := by
  obtain ⟨ref, en, fl, bps, tr, orfs, wo⟩ := st
  refine ⟨?_, ?_, fun h => ?_, fun h hw => ?_, ?_⟩
  · by_cases h : ref = 0 <;> simp [DebugClose, h]
  · by_cases h : ref = 0 <;> simp [DebugClose, h]
  · simp only at h
    simp [DebugClose, h]
  · simp only at h hw
    subst hw
    rw [DebugClose]
    simp only [if_neg h]
    simp [fsWrite, fsClose, closedMsg_take]
  · by_cases h : ref = 0
    · simp [DebugClose, h]
    · cases wo <;> simp [DebugClose, h, fsWrite, fsClose]

/-- Witness for C8: closing an open logger with handle 7, and closing it
twice. -/
theorem debugClose_footer_idempotent_witness :
    DebugClose stOpen7 =
      { stOpen7 with
          file := stOpen7.file ++ closedMsg,
          trace := stOpen7.trace ++ [FSOp.write stOpen7.gDebugRefNum closedMsg,
                                     FSOp.close stOpen7.gDebugRefNum],
          openRefs := stOpen7.openRefs.erase stOpen7.gDebugRefNum,
          gDebugRefNum := 0, gDebugEnabled := false } ∧
    DebugClose (DebugClose stOpen7) = DebugClose stOpen7 :=
  ⟨(debugClose_footer_idempotent stOpen7).2.2.2.1 (by decide) rfl,
   (debugClose_footer_idempotent stOpen7).2.2.2.2⟩

/-- C1: for every proper (non-nil) name, `DebugInit` returns `true` — and
`DebugIsEnabled` subsequently reads `true` — iff the create, open and
header-write steps all succeed; on any failure the logger ends disabled
with reference 0 and no open handle (the handle is closed when the
failure happens after a successful open). `env.openRef ≠ 0` states that a
successful `FSOpen` yields a valid reference number. -/
theorem debugInit_success_iff (env : Env) (s : List Char) (st : St)
    (hORef : env.openRef ≠ 0) (hInv : HandleInv st) :
    ((DebugInit env (some s) st).1 = true ↔
       env.createErr = 0 ∧ env.openErr = 0 ∧ headWriteErr st = 0) ∧
    DebugIsEnabled (DebugInit env (some s) st).2 =
      (DebugInit env (some s) st).1 ∧
    ((DebugInit env (some s) st).1 = true →
       (DebugInit env (some s) st).2.gDebugRefNum = env.openRef) ∧
    ((DebugInit env (some s) st).1 = false →
       (DebugInit env (some s) st).2.gDebugRefNum = 0 ∧
       (DebugInit env (some s) st).2.openRefs = [] ∧
       (env.createErr = 0 → env.openErr = 0 →
         FSOp.close env.openRef ∈ (DebugInit env (some s) st).2.trace)) := by
  obtain ⟨ce, oe, orf⟩ := env
  obtain ⟨ref, en, fl, bps, tr, orfs, wo⟩ := st
  simp only [HandleInv] at hInv
  simp only at hORef
  by_cases hr : ref = 0
  · rw [if_pos hr] at hInv
    subst hr; subst hInv
    cases wo with
    | nil =>
        by_cases hc : ce = 0 <;> by_cases ho : oe = 0 <;>
          simp [DebugInit, fsClose, fsDelete, fsCreate, fsOpen, fsWrite,
            sysBeep, DebugIsEnabled, headWriteErr, headerMsg_take, hc, ho,
            hORef]
    | cons o rest =>
        by_cases hc : ce = 0 <;> by_cases ho : oe = 0 <;>
          by_cases hoe : o.err = 0 <;>
            simp [DebugInit, fsClose, fsDelete, fsCreate, fsOpen, fsWrite,
              sysBeep, DebugIsEnabled, headWriteErr, headerMsg_take, hc, ho,
              hoe, hORef]
  · rw [if_neg hr] at hInv
    subst hInv
    cases wo with
    | nil =>
        by_cases hc : ce = 0 <;> by_cases ho : oe = 0 <;>
          simp [DebugInit, fsClose, fsDelete, fsCreate, fsOpen, fsWrite,
            sysBeep, DebugIsEnabled, headWriteErr, headerMsg_take, hc, ho,
            hORef, hr]
    | cons o rest =>
        by_cases hc : ce = 0 <;> by_cases ho : oe = 0 <;>
          by_cases hoe : o.err = 0 <;>
            simp [DebugInit, fsClose, fsDelete, fsCreate, fsOpen, fsWrite,
              sysBeep, DebugIsEnabled, headWriteErr, headerMsg_take, hc, ho,
              hoe, hORef, hr]

/-- Witness for C1: with every step succeeding `DebugInit` returns true;
with a failing header write (error -36, disk I/O error) it leaves
reference 0, no open handle, and has closed the partially opened file. -/
theorem debugInit_success_iff_witness :
    (DebugInit ⟨0, 0, 7⟩ (some "log.txt".toList) (initialState [])).1 =
      true ∧
    (DebugInit ⟨0, 0, 7⟩ (some "log.txt".toList)
        (initialState [⟨-36, 0⟩])).2.gDebugRefNum = 0 ∧
    (DebugInit ⟨0, 0, 7⟩ (some "log.txt".toList)
        (initialState [⟨-36, 0⟩])).2.openRefs = [] ∧
    FSOp.close 7 ∈
      (DebugInit ⟨0, 0, 7⟩ (some "log.txt".toList)
        (initialState [⟨-36, 0⟩])).2.trace :=
  ⟨((debugInit_success_iff ⟨0, 0, 7⟩ "log.txt".toList (initialState [])
      (by decide) (by simp [HandleInv, initialState])).1).mpr
      ⟨rfl, rfl, rfl⟩,
   ((debugInit_success_iff ⟨0, 0, 7⟩ "log.txt".toList (initialState [⟨-36, 0⟩])
      (by decide) (by simp [HandleInv, initialState])).2.2.2 (by decide)).1,
   ((debugInit_success_iff ⟨0, 0, 7⟩ "log.txt".toList (initialState [⟨-36, 0⟩])
      (by decide) (by simp [HandleInv, initialState])).2.2.2 (by decide)).2.1,
   ((debugInit_success_iff ⟨0, 0, 7⟩ "log.txt".toList (initialState [⟨-36, 0⟩])
      (by decide) (by simp [HandleInv, initialState])).2.2.2
      (by decide)).2.2 rfl rfl⟩

/-- C2 counterexample: an empty (but non-nil) name is not rejected —
with all file-system steps succeeding, `DebugInit` returns success, not
failure; and with a nil name the code does perform I/O before reporting
the failure, namely closing the previously open handle 3. -/
theorem debugInit_nil_empty_cex :
    (DebugInit ⟨0, 0, 7⟩ (some []) (initialState [])).1 = true ∧
    (DebugInit ⟨0, 0, 7⟩ none
      { initialState [] with gDebugRefNum := 3, gDebugEnabled := true,
                             openRefs := [3] }).2.trace = [FSOp.close 3] := by
  decide

/-- C2 amended: a nil name makes `DebugInit` return failure (beep 1)
before any delete, create, open or write is attempted — though any
previously open handle is closed first; an empty name is not rejected
and proceeds to the normal I/O sequence, succeeding when every step
succeeds. -/
theorem debugInit_nil_rejected (env : Env) (st : St) :
    (DebugInit env none st).1 = false ∧
    (DebugInit env none st).2.beeps = st.beeps ++ [1] ∧
    (DebugInit env none st).2.trace =
      st.trace ++
        (if st.gDebugRefNum = 0 then [] else [FSOp.close st.gDebugRefNum]) ∧
    (env.createErr = 0 → env.openErr = 0 → headWriteErr st = 0 →
      (DebugInit env (some []) st).1 = true) := by
  obtain ⟨ce, oe, orf⟩ := env
  obtain ⟨ref, en, fl, bps, tr, orfs, wo⟩ := st
  refine ⟨?_, ?_, ?_, fun hc ho hoe => ?_⟩
  · by_cases hr : ref = 0 <;> simp [DebugInit, fsClose, sysBeep, hr]
  · by_cases hr : ref = 0 <;> simp [DebugInit, fsClose, sysBeep, hr]
  · by_cases hr : ref = 0 <;> simp [DebugInit, fsClose, sysBeep, hr]
  · simp only at hc ho
    cases wo with
    | nil =>
        by_cases hr : ref = 0 <;>
          simp [DebugInit, fsClose, fsDelete, fsCreate, fsOpen, fsWrite,
            sysBeep, headerMsg_take, hr, hc, ho]
    | cons o rest =>
        simp only [headWriteErr] at hoe
        by_cases hr : ref = 0 <;>
          simp [DebugInit, fsClose, fsDelete, fsCreate, fsOpen, fsWrite,
            sysBeep, headerMsg_take, hr, hc, ho, hoe]

/-- Witness for C2's amended theorem: a nil name against a logger with
open handle 3 fails with only the close in the trace, and the empty name
succeeds in a fully working environment. -/
theorem debugInit_nil_rejected_witness :
    (DebugInit ⟨0, 0, 7⟩ none
      { initialState [] with gDebugRefNum := 3, gDebugEnabled := true,
                             openRefs := [3] }).1 = false ∧
    (DebugInit ⟨0, 0, 7⟩ (some []) (initialState [])).1 = true :=
  ⟨(debugInit_nil_rejected ⟨0, 0, 7⟩
      { initialState [] with gDebugRefNum := 3, gDebugEnabled := true,
                             openRefs := [3] }).1,
   (debugInit_nil_rejected ⟨0, 0, 7⟩ (initialState [])).2.2.2 rfl rfl rfl⟩

/-- C7: for a non-nil name measuring longer than 255 bytes, `DebugInit`
uses exactly the first 255 bytes of the name for the delete, create and
open calls (truncation, not an error: with working steps it still
succeeds). -/
theorem debugInit_truncates_name (env : Env) (s : List Char) (st : St)
    (hRef : st.gDebugRefNum = 0) (hLen : 255 < MyStrLen (some s))
    (hC : env.createErr = 0) (hO : env.openErr = 0)
    (hOut : st.writeOutcomes = []) :
    (DebugInit env (some s) st).1 = true ∧
    (DebugInit env (some s) st).2.trace =
      st.trace ++ [FSOp.delete (s.take 255), FSOp.create (s.take 255),
                   FSOp.openF (s.take 255),
                   FSOp.write env.openRef headerMsg] := by
  have hmin : min (MyStrLen (some s)) 255 = 255 := by omega
  obtain ⟨ce, oe, orf⟩ := env
  obtain ⟨ref, en, fl, bps, tr, orfs, wo⟩ := st
  simp only at hRef hC hO hOut
  subst hRef hC hO hOut
  simp [DebugInit, fsClose, fsDelete, fsCreate, fsOpen, fsWrite, sysBeep,
    hmin, headerMsg_take]

set_option maxRecDepth 4000 in
/-- Witness for C7: a 300-byte name is truncated to its first 255 bytes
on disk. -/
theorem debugInit_truncates_name_witness :
    (DebugInit ⟨0, 0, 7⟩ (some (List.replicate 300 'a'))
      (initialState [])).1 = true ∧
    (DebugInit ⟨0, 0, 7⟩ (some (List.replicate 300 'a'))
      (initialState [])).2.trace =
      (initialState []).trace ++
        [FSOp.delete ((List.replicate 300 'a').take 255),
         FSOp.create ((List.replicate 300 'a').take 255),
         FSOp.openF ((List.replicate 300 'a').take 255),
         FSOp.write 7 headerMsg] :=
  debugInit_truncates_name ⟨0, 0, 7⟩ (List.replicate 300 'a')
    (initialState []) rfl (by decide) rfl rfl rfl

/-- C4: in `DebugLog`, if the message write reports an error or a byte
count different from the message length, the `\r` terminator is not
written (the trace gains only the one message-write call) and beep 20 is
emitted; a failing terminator write emits the distinct beep 21; in both
cases nothing is returned to the caller (the operation yields only a
state) and the logger stays enabled with its handle intact (all fields
other than file, trace, beeps and the outcome queue are unchanged). -/
theorem debugLog_write_failure (st : St) (s : List Char) (o o2 : WriteOutcome)
    (rest : List WriteOutcome) (hEn : st.gDebugEnabled = true)
    (hRef : st.gDebugRefNum ≠ 0) (hLen : 0 < MyStrLen (some s)) :
    (st.writeOutcomes = o :: rest →
      o.err ≠ 0 ∨ o.written < MyStrLen (some s) →
      DebugLog (some s) st =
        { st with
            file := st.file ++ s.take (min o.written (MyStrLen (some s))),
            trace := st.trace ++
              [FSOp.write st.gDebugRefNum (s.take (MyStrLen (some s)))],
            beeps := st.beeps ++ [20],
            writeOutcomes := rest }) ∧
    (st.writeOutcomes = o :: o2 :: rest → o.err = 0 →
      MyStrLen (some s) ≤ o.written → o2.err ≠ 0 →
      DebugLog (some s) st =
        { st with
            file := st.file ++ s.take (MyStrLen (some s)) ++
              ['\r'].take (min o2.written 1),
            trace := st.trace ++
              [FSOp.write st.gDebugRefNum (s.take (MyStrLen (some s))),
               FSOp.write st.gDebugRefNum ['\r']],
            beeps := st.beeps ++ [21],
            writeOutcomes := rest }) := by
  have hL : (s.take (MyStrLen (some s))).length = MyStrLen (some s) := by
    rw [List.length_take]
    have := MyStrLen_le_length s
    omega
  obtain ⟨ref, en, fl, bps, tr, orfs, wo⟩ := st
  simp only at hEn hRef
  subst hEn
  refine ⟨fun hOut hFail => ?_, fun hOut hE1 hC1 hE2 => ?_⟩
  · simp only at hOut
    subst hOut
    rcases hFail with hML | hML
    · simp [DebugLog, fsWrite, sysBeep, hRef, hL, hML, List.take_take,
        Nat.ne_of_gt hLen]
    · have hne : ¬ min o.written (MyStrLen (some s)) = MyStrLen (some s) := by
        omega
      simp [DebugLog, fsWrite, sysBeep, hRef, hL, hne, List.take_take,
        Nat.ne_of_gt hLen]
  · simp only at hOut
    subst hOut
    have hmin : min o.written (MyStrLen (some s)) = MyStrLen (some s) := by
      omega
    simp [DebugLog, fsWrite, sysBeep, hRef, hL, hE1, hE2, hmin,
      List.take_take, Nat.ne_of_gt hLen]

/-- Witness for C4: a failing message write (error -36, 0 bytes) beeps 20
and writes no terminator, and a failing terminator write beeps 21; both
leave the logger enabled with handle 7. -/
theorem debugLog_write_failure_witness :
    DebugLog (some "hi".toList) stFailMsg =
      { stFailMsg with
          file := stFailMsg.file ++
            "hi".toList.take (min 0 (MyStrLen (some "hi".toList))),
          trace := stFailMsg.trace ++
            [FSOp.write stFailMsg.gDebugRefNum
              ("hi".toList.take (MyStrLen (some "hi".toList)))],
          beeps := stFailMsg.beeps ++ [20],
          writeOutcomes := [] } ∧
    DebugLog (some "hi".toList) stFailNl =
      { stFailNl with
          file := stFailNl.file ++
            "hi".toList.take (MyStrLen (some "hi".toList)) ++
            ['\r'].take (min 0 1),
          trace := stFailNl.trace ++
            [FSOp.write stFailNl.gDebugRefNum
              ("hi".toList.take (MyStrLen (some "hi".toList))),
             FSOp.write stFailNl.gDebugRefNum ['\r']],
          beeps := stFailNl.beeps ++ [21],
          writeOutcomes := [] } :=
  ⟨(debugLog_write_failure stFailMsg "hi".toList ⟨-36, 0⟩ ⟨0, 0⟩ []
      rfl (by decide) (by decide)).1 rfl (Or.inl (by decide)),
   (debugLog_write_failure stFailNl "hi".toList ⟨0, 5⟩ ⟨-36, 0⟩ []
      rfl (by decide) (by decide)).2 rfl rfl (by decide) (by decide)⟩

/-- C5: for an enabled logger, a non-nil message and fully succeeding
writes, `DebugLogInt` appends `<message><decimal>\r` to the file, where
the decimal is the exact base-10 magnitude with a leading minus iff the
value is negative; the range covers the whole 32-bit signed long,
including its minimum, whose magnitude is computed without overflow via
the unsigned arithmetic `((-v) mod 2^32)`. -/
theorem debugLogInt_decimal (st : St) (pre : List Char) (v : Int)
    (hEn : st.gDebugEnabled = true) (hRef : st.gDebugRefNum ≠ 0)
    (hOut : st.writeOutcomes = [])
    (hNul : Char.ofNat 0 ∉ pre) (hLenP : pre.length ≤ 32000)
    (hLo : -(2 : Int) ^ 31 ≤ v) (hHi : v < 2 ^ 31) :
    (DebugLogInt (some pre) v st).file =
      st.file ++ pre ++ intDec v ++ ['\r'] := by
  have hML : MyStrLen (some pre) = pre.length := MyStrLen_of_noNul pre hNul hLenP
  have hTake : pre.take (MyStrLen (some pre)) = pre := by
    rw [hML, List.take_length]
  have h32 : (2 : Int) ^ 32 = 4294967296 := by norm_num
  have h31 : (2 : Int) ^ 31 = 2147483648 := by norm_num
  rw [h31] at hHi hLo
  have habs : (if v < 0 then ((-v) % (4294967296 : Int)).toNat
      else (v % (4294967296 : Int)).toNat) = v.natAbs := by
    by_cases h : v < 0
    · rw [if_pos h]
      omega
    · rw [if_neg h]
      omega
  have h19 : (10 : Nat) ^ 19 = 10000000000000000000 := by norm_num
  have hm : Char.ofNat 45 = '-' := by decide
  have hrevBuf :
      (if v < 0 then [Char.ofNat 45] else []).reverse ++
        ((if v = 0 then [Char.ofNat 48]
          else buildDigitsAux v.natAbs 19).reverse ++ ['\r']) =
      intDec v ++ ['\r'] := by
    by_cases hneg : v < 0
    · have hna : ¬ v = 0 := by omega
      have hlt : v.natAbs < 10 ^ 19 := by
        rw [h19]
        omega
      rw [if_pos hneg, if_neg hna,
        buildDigitsAux_reverse 19 v.natAbs (by omega) hlt,
        List.reverse_singleton, hm, intDec, if_pos hneg, natDec]
      simp
    · rw [if_neg hneg, List.reverse_nil, List.nil_append,
        intDec, if_neg hneg, List.nil_append, natDec]
      by_cases hna : v = 0
      · rw [if_pos hna, hna]
        decide
      · have hlt : v.natAbs < 10 ^ 19 := by
          rw [h19]
          omega
        rw [if_neg hna, buildDigitsAux_reverse 19 v.natAbs (by omega) hlt]
  obtain ⟨ref, en, fl, bps, tr, orfs, wo⟩ := st
  simp only at hEn hRef hOut
  subst hEn
  subst hOut
  by_cases hp : 0 < pre.length
  · simp [DebugLogInt, hML, hRef, hp, fsWrite, hTake,
      writeRevBytes_nilOutcomes, h32, habs]
    exact hrevBuf
  · have hpre : pre = [] := by
      cases pre with
      | nil => rfl
      | cons c cs => simp at hp
    subst hpre
    simp [DebugLogInt, hML, hRef, fsWrite,
      writeRevBytes_nilOutcomes, h32, habs]
    exact hrevBuf

/-- Witness for C5: logging the minimum representable signed long
appends `Value: -2147483648\r`, the exact magnitude with a leading
minus. -/
theorem debugLogInt_decimal_witness :
    (DebugLogInt (some "Value: ".toList) (-2147483648) stOpen7).file =
      stOpen7.file ++ "Value: ".toList ++ intDec (-2147483648) ++ ['\r'] ∧
    intDec (-2147483648) = "-2147483648".toList :=
  ⟨debugLogInt_decimal stOpen7 "Value: ".toList (-2147483648) rfl
      (by decide) rfl (by decide) (by decide) (by norm_num) (by norm_num),
   by decide⟩

/-- C6: for an enabled logger, non-nil message and any unsigned value,
`DebugLogHex` appends the prefix (if non-empty), the literal `0x`, then
exactly two uppercase hexadecimal digits of `value mod 256` (the low
byte, zero-padded, higher bits discarded), then `\r`. -/
theorem debugLogHex_lowByte (st : St) (pre : List Char) (v : Nat)
    (hEn : st.gDebugEnabled = true) (hRef : st.gDebugRefNum ≠ 0)
    (hOut : st.writeOutcomes = [])
    (hNul : Char.ofNat 0 ∉ pre) (hLenP : pre.length ≤ 32000) :
    (DebugLogHex (some pre) v st).file =
      st.file ++ pre ++
        ['0', 'x', hexChar (v % 256 / 16), hexChar (v % 256 % 16)] ++
        ['\r'] := by
  have hML : MyStrLen (some pre) = pre.length := MyStrLen_of_noNul pre hNul hLenP
  have hTake : pre.take (MyStrLen (some pre)) = pre := by
    rw [hML, List.take_length]
  have hd1 : v % 4294967296 / 16 % 16 = v % 256 / 16 := by omega
  have hd2 : v % 4294967296 % 16 = v % 256 % 16 := by omega
  obtain ⟨ref, en, fl, bps, tr, orfs, wo⟩ := st
  simp only at hEn hRef hOut
  subst hEn
  subst hOut
  by_cases hp : 0 < pre.length
  · simp [DebugLogHex, hML, hRef, hp, fsWrite, hTake, hd1, hd2]
  · have hpre : pre = [] := by
      cases pre with
      | nil => rfl
      | cons c cs => simp at hp
    subst hpre
    simp [DebugLogHex, hML, hRef, fsWrite, hd1, hd2]

/-- Witness for C6: `appendHex("x=", 0x1FF)` appends `x=0xFF\r` — only
the low byte, uppercase, exactly two digits. -/
theorem debugLogHex_lowByte_witness :
    (DebugLogHex (some "x=".toList) 511 stOpen7).file =
      stOpen7.file ++ "x=".toList ++
        ['0', 'x', hexChar (511 % 256 / 16), hexChar (511 % 256 % 16)] ++
        ['\r'] ∧
    ['0', 'x', hexChar (511 % 256 / 16), hexChar (511 % 256 % 16)] =
      "0xFF".toList :=
  ⟨debugLogHex_lowByte stOpen7 "x=".toList 511 rfl (by decide) rfl
      (by decide) (by decide),
   by decide⟩

theorem writeRevBytes_gDebugRefNum (ref : Int) (l : List Char) (st : St) :
    (writeRevBytes ref l st).2.gDebugRefNum = st.gDebugRefNum := by
  induction l generalizing st with
  | nil => simp [writeRevBytes]
  | cons c rest ih =>
      rw [writeRevBytes]
      by_cases h : (writeRevBytes ref rest st).1 <;> simp [h, ih]

theorem writeRevBytes_gDebugEnabled (ref : Int) (l : List Char) (st : St) :
    (writeRevBytes ref l st).2.gDebugEnabled = st.gDebugEnabled := by
  induction l generalizing st with
  | nil => simp [writeRevBytes]
  | cons c rest ih =>
      rw [writeRevBytes]
      by_cases h : (writeRevBytes ref rest st).1 <;> simp [h, ih]

theorem writeRevBytes_openRefs (ref : Int) (l : List Char) (st : St) :
    (writeRevBytes ref l st).2.openRefs = st.openRefs := by
  induction l generalizing st with
  | nil => simp [writeRevBytes]
  | cons c rest ih =>
      rw [writeRevBytes]
      by_cases h : (writeRevBytes ref rest st).1 <;> simp [h, ih]

theorem debugLog_same_handle (m : Option (List Char)) (st : St) :
    (DebugLog m st).gDebugRefNum = st.gDebugRefNum ∧
    (DebugLog m st).gDebugEnabled = st.gDebugEnabled ∧
    (DebugLog m st).openRefs = st.openRefs := by
  cases m <;>
    simp [DebugLog, sysBeep, apply_ite St.gDebugRefNum,
      apply_ite St.gDebugEnabled, apply_ite St.openRefs]

theorem debugLogInt_same_handle (m : Option (List Char)) (v : Int) (st : St) :
    (DebugLogInt m v st).gDebugRefNum = st.gDebugRefNum ∧
    (DebugLogInt m v st).gDebugEnabled = st.gDebugEnabled ∧
    (DebugLogInt m v st).openRefs = st.openRefs := by
  cases m <;>
    simp [DebugLogInt, apply_ite St.gDebugRefNum,
      apply_ite St.gDebugEnabled, apply_ite St.openRefs,
      apply_ite (fun p : Bool × St => p.1),
      apply_ite (fun p : Bool × St => p.2),
      writeRevBytes_gDebugRefNum, writeRevBytes_gDebugEnabled,
      writeRevBytes_openRefs]

theorem debugLogHex_same_handle (m : Option (List Char)) (w : Nat) (st : St) :
    (DebugLogHex m w st).gDebugRefNum = st.gDebugRefNum ∧
    (DebugLogHex m w st).gDebugEnabled = st.gDebugEnabled ∧
    (DebugLogHex m w st).openRefs = st.openRefs := by
  cases m <;>
    simp [DebugLogHex, apply_ite St.gDebugRefNum,
      apply_ite St.gDebugEnabled, apply_ite St.openRefs]

theorem Inv_of_same_handle (st st2 : St)
    (h1 : st2.gDebugRefNum = st.gDebugRefNum)
    (h2 : st2.gDebugEnabled = st.gDebugEnabled)
    (h3 : st2.openRefs = st.openRefs) (h : Inv st) : Inv st2 := by
  unfold Inv HandleInv at *
  rw [h1, h2, h3]
  exact h

/-- C9: the invariant "enabled implies a handle is present, and at most
that one handle is open" holds in the initial state and is preserved by
every operation; `DebugInit` keeps it because it closes any previous
handle before opening a new one (`env.openRef ≠ 0` states that a
successful `FSOpen` yields a valid reference number). -/
theorem logger_state_invariant (outs : List WriteOutcome) (env : Env)
    (nm m mi mh mf : Option (List Char)) (v : Int) (w : Nat) (st : St)
    (hORef : env.openRef ≠ 0) :
    Inv (initialState outs) ∧
    (Inv st → Inv (DebugInit env nm st).2) ∧
    (Inv st → Inv (DebugLog m st)) ∧
    (Inv st → Inv (DebugLogInt mi v st)) ∧
    (Inv st → Inv (DebugLogHex mh w st)) ∧
    (Inv st → Inv (DebugLogFormat mf st)) ∧
    (Inv st → Inv (DebugFlush st)) ∧
    (Inv st → Inv (DebugClose st)) ∧
    (Inv st → st.openRefs.length ≤ 1) := by
  refine ⟨?_, fun hInv => ?_, fun hInv => ?_, fun hInv => ?_, fun hInv => ?_,
    fun hInv => ?_, fun hInv => ?_, fun hInv => ?_, fun hInv => ?_⟩
  · simp [Inv, HandleInv, initialState]
  · obtain ⟨hEn, hH⟩ := hInv
    obtain ⟨ce, oe, orf⟩ := env
    obtain ⟨ref, en, fl, bps, tr, orfs, wo⟩ := st
    simp only [HandleInv] at hH
    simp only at hORef
    cases nm with
    | none =>
        by_cases hr : ref = 0
        · rw [if_pos hr] at hH
          subst hr
          subst hH
          simp [DebugInit, Inv, HandleInv, fsClose, sysBeep]
        · rw [if_neg hr] at hH
          subst hH
          simp [DebugInit, Inv, HandleInv, fsClose, sysBeep, hr]
    | some s =>
        by_cases hr : ref = 0
        · rw [if_pos hr] at hH
          subst hr
          subst hH
          cases wo with
          | nil =>
              by_cases hc : ce = 0 <;> by_cases ho : oe = 0 <;>
                simp [DebugInit, Inv, HandleInv, fsClose, fsDelete, fsCreate,
                  fsOpen, fsWrite, sysBeep, headerMsg_take, hc, ho, hORef]
          | cons o rest =>
              by_cases hc : ce = 0 <;> by_cases ho : oe = 0 <;>
                by_cases hoe : o.err = 0 <;>
                  simp [DebugInit, Inv, HandleInv, fsClose, fsDelete,
                    fsCreate, fsOpen, fsWrite, sysBeep, headerMsg_take, hc,
                    ho, hoe, hORef]
        · rw [if_neg hr] at hH
          subst hH
          cases wo with
          | nil =>
              by_cases hc : ce = 0 <;> by_cases ho : oe = 0 <;>
                simp [DebugInit, Inv, HandleInv, fsClose, fsDelete, fsCreate,
                  fsOpen, fsWrite, sysBeep, headerMsg_take, hc, ho, hORef, hr]
          | cons o rest =>
              by_cases hc : ce = 0 <;> by_cases ho : oe = 0 <;>
                by_cases hoe : o.err = 0 <;>
                  simp [DebugInit, Inv, HandleInv, fsClose, fsDelete,
                    fsCreate, fsOpen, fsWrite, sysBeep, headerMsg_take, hc,
                    ho, hoe, hORef, hr]
  · exact Inv_of_same_handle st (DebugLog m st) (debugLog_same_handle m st).1
      (debugLog_same_handle m st).2.1 (debugLog_same_handle m st).2.2 hInv
  · exact Inv_of_same_handle st (DebugLogInt mi v st)
      (debugLogInt_same_handle mi v st).1
      (debugLogInt_same_handle mi v st).2.1
      (debugLogInt_same_handle mi v st).2.2 hInv
  · exact Inv_of_same_handle st (DebugLogHex mh w st)
      (debugLogHex_same_handle mh w st).1
      (debugLogHex_same_handle mh w st).2.1
      (debugLogHex_same_handle mh w st).2.2 hInv
  · cases mf with
    | none => exact hInv
    | some s =>
        exact Inv_of_same_handle st (DebugLog (some s) st)
          (debugLog_same_handle (some s) st).1
          (debugLog_same_handle (some s) st).2.1
          (debugLog_same_handle (some s) st).2.2 hInv
  · exact hInv
  · obtain ⟨hEn, hH⟩ := hInv
    obtain ⟨ref, en, fl, bps, tr, orfs, wo⟩ := st
    simp only [HandleInv] at hH
    by_cases hr : ref = 0
    · rw [if_pos hr] at hH
      subst hr
      subst hH
      simp [DebugClose, Inv, HandleInv, fsClose, fsWrite]
    · rw [if_neg hr] at hH
      subst hH
      cases wo <;>
        simp [DebugClose, Inv, HandleInv, fsClose, fsWrite, hr]
  · obtain ⟨hEn, hH⟩ := hInv
    unfold HandleInv at hH
    split at hH <;> simp [hH]

/-- Witness for C9: the invariant holds at the initial state and is kept
by a concrete run (initialising with handle 7 and closing). -/
theorem logger_state_invariant_witness :
    Inv (initialState []) ∧
    Inv (DebugInit ⟨0, 0, 7⟩ (some "log.txt".toList) (initialState [])).2 ∧
    Inv (DebugClose stOpen7) :=
  ⟨(logger_state_invariant [] ⟨0, 0, 7⟩ none none none none none 0 0
      (initialState []) (by decide)).1,
   (logger_state_invariant [] ⟨0, 0, 7⟩ (some "log.txt".toList) none none
      none none 0 0 (initialState []) (by decide)).2.1
      (by unfold Inv HandleInv; decide),
   (logger_state_invariant [] ⟨0, 0, 7⟩ none none none none none 0 0
      stOpen7 (by decide)).2.2.2.2.2.2.2.1 (by unfold Inv HandleInv; decide)⟩

theorem le_length_takeWhile (t : List Char) (n : Nat) (hn : n ≤ t.length)
    (hno : Char.ofNat 0 ∉ t.take n) :
    n ≤ (t.takeWhile fun c => c ≠ Char.ofNat 0).length := by
  induction t generalizing n with
  | nil =>
      simp at hn
      omega
  | cons c rest ih =>
      cases n with
      | zero => exact Nat.zero_le _
      | succ k =>
          simp only [List.take_succ_cons, List.mem_cons, not_or] at hno
          obtain ⟨h1, hrest⟩ := hno
          have hc : c ≠ Char.ofNat 0 := fun h => h1 h.symm
          rw [List.takeWhile_cons, if_pos (by simpa using hc)]
          simp only [List.length_cons]
          have hn2 : k ≤ rest.length := by simpa using hn
          exact Nat.succ_le_succ (ih k hn2 hrest)

/-- C10: every text argument's length is measured by `MyStrLen` as the
minimum of the byte count before the first NUL and 32000; consequently
`DebugLog` on a message whose NUL terminator lies beyond byte 32000
writes only the first 32000 bytes of it (plus the terminator). -/
theorem myStrLen_cap (s t : List Char) (st : St) :
    MyStrLen (some s) =
      min ((s.takeWhile fun c => c ≠ Char.ofNat 0).length) 32000 ∧
    (st.gDebugEnabled = true → st.gDebugRefNum ≠ 0 → st.writeOutcomes = [] →
      32000 ≤ t.length → Char.ofNat 0 ∉ t.take 32000 →
      (DebugLog (some t) st).file = st.file ++ t.take 32000 ++ ['\r']) := by
  refine ⟨MyStrLen_eq s, fun hEn hRef hOut hlen hno => ?_⟩
  have hml : MyStrLen (some t) = 32000 := by
    rw [MyStrLen_eq]
    have := le_length_takeWhile t 32000 hlen hno
    omega
  have hlt : (t.take 32000).length = 32000 := by
    rw [List.length_take]
    omega
  obtain ⟨ref, en, fl, bps, tr, orfs, wo⟩ := st
  simp only at hEn hRef hOut
  subst hEn
  subst hOut
  simp [DebugLog, hml, hRef, fsWrite, hlt]

/-- Witness for C10: the length formula at a string with an embedded NUL,
and a 32005-byte NUL-free message of which only 32000 bytes are written. -/
theorem myStrLen_cap_witness :
    MyStrLen (some ['a', Char.ofNat 0, 'b']) =
      min ((['a', Char.ofNat 0, 'b'].takeWhile
        fun c => c ≠ Char.ofNat 0).length) 32000 ∧
    (DebugLog (some (List.replicate 32005 'a')) stOpen7).file =
      stOpen7.file ++ (List.replicate 32005 'a').take 32000 ++ ['\r'] :=
  ⟨(myStrLen_cap ['a', Char.ofNat 0, 'b'] [] stOpen7).1,
   (myStrLen_cap [] (List.replicate 32005 'a') stOpen7).2 rfl (by decide)
     rfl (by rw [List.length_replicate]; norm_num)
     (by
       rw [List.take_replicate]
       intro hmem
       rw [List.mem_replicate] at hmem
       exact absurd hmem.2 (by decide))⟩

end VintageMacDebug
